import Mathlib

/-!
Shallow embedding of the genetic-algorithm engine of `src/genetic.py`
(Runner.run, AgeAnnealingRunner.run, FitnessStagnationDetection,
AgeAnnealing) from the repository GeneticAlgorithmsWithPython.

Modelling choices:
* A chromosome is its opaque gene payload (a `Nat` tag; the engine never
  inspects genes, only feeds them to the fitness / stopping functions)
  together with its `age` field (a Python `int`, here `Int`).
* Fitness values are `Int` (the engine only compares them with `>`, `=`,
  `<`; Python floats are totally ordered the same way on the values the
  claims use).
* `random.random() < exp(-proportion_similar)` is an oracle
  `accept : Nat → Rat → Bool` (iteration number and the exact
  `proportion_similar` value passed to the test); `exp` is transcendental
  and the draw is nondeterministic, so only the Boolean outcome matters
  to control flow.
* Python objects are modelled by value; the only in-place mutation the
  loop performs is on the `age` field, and the only aliasing that can
  make such a mutation observable is `parent`/`best_parent` referring to
  the same object, tracked explicitly by the `aliased` flag.
* The unbounded `while True` loops become fuel-indexed iteration; a run
  that has not returned within the given fuel yields `none`.
-/

structure Chromosome where
  genes : Nat
  age : Int
deriving DecidableEq, Repr

namespace FitnessStagnationDetection

/-- Mutable state of `FitnessStagnationDetection`: `last_fitness`
(initially `None`) and `last_generation` (initially `0`). -/
structure State where
  lastFitness : Option Int
  lastGeneration : Nat
deriving DecidableEq, Repr

/-- The state `FitnessStagnationDetection.__init__` creates. -/
def State.initial : State := ⟨none, 0⟩

/-- Embeds `FitnessStagnationDetection.__call__` (genetic.py lines
388-411): `gens` is `self.generations`, `f` the fitness of the
chromosome passed in. Returns the Boolean result and the new state. -/
def call (gens : Int) (f : Int) (s : State) : Bool × State :=
  match s.lastFitness with
  | none => (false, ⟨some f, 0⟩)
  | some lf =>
    if f > lf then
      (false, ⟨some f, 0⟩)
    else
      let lg := s.lastGeneration + 1
      (decide ((lg : Int) ≥ gens), ⟨some lf, lg⟩)

end FitnessStagnationDetection

/-- Embeds `bisect.bisect_left(a, x, lo, hi)`: binary search for the
leftmost insertion point of `x` in `a`, exactly as in CPython:
`while lo < hi: mid = (lo+hi)//2; if a[mid] < x: lo = mid+1 else hi = mid`. -/
def bisectLeft (a : List Int) (x : Int) (lo hi : Nat) : Nat :=
  if _h : lo < hi then
    let mid := (lo + hi) / 2
    if a.getD mid 0 < x then bisectLeft a x (mid + 1) hi
    else bisectLeft a x lo mid
  else lo
termination_by hi - lo
decreasing_by
  · omega
  · omega

/-- Computes `proportion_similar` as in `AgeAnnealingRunner.run`
(genetic.py lines 308-317): the `bisect_left` index of the child's
fitness in `historical_fitnesses`, divided (true division) by the
length of that list. -/
def proportionSimilar (hist : List Int) (f : Int) : Rat :=
  (bisectLeft hist f 0 hist.length : Rat) / (hist.length : Rat)

namespace AgeAnnealingRunner

/-- The strategy objects and configuration a concrete
`AgeAnnealingRunner` subclass supplies, plus the oracles for the
nondeterministic parts (mutation randomness, `random.random()`). -/
structure Env where
  fitness : Nat → Int
  stoppingCriteria : Nat → Bool
  mutate : Chromosome → Nat → Chromosome
  accept : Nat → Rat → Bool
  generate : Chromosome
  ageLimit : Int
  gens : Int

/-- Loop state of `AgeAnnealingRunner.run`: `best_parent`, `parent`,
whether those two names refer to the same Python object, the
`historical_fitnesses` list, the stagnation detector's state and the
iteration counter. -/
structure State where
  bestParent : Chromosome
  parent : Chromosome
  aliased : Bool
  hist : List Int
  det : FitnessStagnationDetection.State
  iter : Nat
deriving DecidableEq, Repr

/-- Result of executing one iteration of the `while True` loop:
`result` is `some c` when the iteration executed a `return c`;
`displayed` lists the chromosomes passed to `self.display`;
`props` lists the `proportion_similar` values fed to the
`random.random() < exp(-proportion_similar)` test. -/
structure StepOut where
  result : Option Chromosome
  state : State
  displayed : List Chromosome
  props : List Rat
deriving Repr

/-- Lines 334-374 of genetic.py: the comparison section from
`if self.fitness(parent) == self.fitness(child)` to the bottom of the
loop, entered either directly (child at least as fit as parent) or by
falling through from the annealing-revert branch. -/
def tail (env : Env) (child : Chromosome) (s : State) (props : List Rat) :
    StepOut :=
  if env.fitness s.parent.genes = env.fitness child.genes then
    -- child.age = parent.age + 1; parent = deepcopy(child); continue
    let child1 : Chromosome := ⟨child.genes, s.parent.age + 1⟩
    ⟨none, { s with parent := child1, aliased := false }, [], props⟩
  else
    -- child.age = 0; parent = child
    let child1 : Chromosome := ⟨child.genes, 0⟩
    let improved := env.fitness s.bestParent.genes < env.fitness child1.genes
    let best1 := if improved then child1 else s.bestParent
    let hist1 :=
      if improved then s.hist ++ [env.fitness child1.genes] else s.hist
    let s1 : State :=
      { s with parent := child1, bestParent := best1, hist := hist1,
               aliased := improved }
    -- self.display(child)
    if env.stoppingCriteria child1.genes then
      ⟨some child1, s1, [child1], props⟩
    else
      -- best_parent = child
      ⟨none, { s1 with bestParent := child1, aliased := true }, [child1],
        props⟩

/-- One iteration of the `while True` loop of `AgeAnnealingRunner.run`
(genetic.py lines 265-374). -/
def step (env : Env) (s : State) : StepOut :=
  let n := s.iter + 1
  let child := env.mutate s.parent n
  if env.fitness s.parent.genes > env.fitness child.genes then
    let d := FitnessStagnationDetection.call env.gens
      (env.fitness s.bestParent.genes) s.det
    if d.1 then
      ⟨some s.bestParent, { s with det := d.2, iter := n }, [], []⟩
    else if env.ageLimit = 0 then
      -- `if not self.age_limit: continue`
      ⟨none, { s with det := d.2, iter := n }, [], []⟩
    else
      -- parent.age += 1 (mutates best_parent too when aliased)
      let parent1 : Chromosome := ⟨s.parent.genes, s.parent.age + 1⟩
      let best1 :=
        if s.aliased then (⟨s.bestParent.genes, s.bestParent.age + 1⟩ : Chromosome)
        else s.bestParent
      if parent1.age < env.ageLimit then
        ⟨none, { s with parent := parent1, bestParent := best1,
                        det := d.2, iter := n }, [], []⟩
      else
        let prop := proportionSimilar s.hist (env.fitness child.genes)
        if env.accept n prop then
          -- annealing not chosen: parent = child; continue
          ⟨none, { s with parent := child, bestParent := best1,
                          aliased := false, det := d.2, iter := n },
            [], [prop]⟩
        else
          -- best_parent.age = 0; parent = best_parent — NO continue:
          -- control falls through into the comparison section.
          let best2 : Chromosome := ⟨best1.genes, 0⟩
          tail env child
            { s with parent := best2, bestParent := best2, aliased := true,
                     det := d.2, iter := n } [prop]
  else
    tail env child { s with iter := s.iter + 1 } []

/-- Aggregate outcome of running the loop for a bounded number of
iterations: the returned chromosome (if any), everything displayed, the
number of `self.mutate` invocations, the fitness of `best_parent`
after each completed (non-returning) iteration, and the final state. -/
structure RunOut where
  result : Option Chromosome
  displayed : List Chromosome
  mutations : Nat
  bestTrace : List Int
  final : State
deriving Repr

/-- Run the `while True` loop for at most `fuel` iterations. -/
def loop (env : Env) : Nat → State → RunOut
  | 0, s => ⟨none, [], 0, [], s⟩
  | fuel + 1, s =>
    let o := step env s
    match o.result with
    | some c => ⟨some c, o.displayed, 1, [], o.state⟩
    | none =>
      let r := loop env fuel o.state
      ⟨r.result, o.displayed ++ r.displayed, r.mutations + 1,
        env.fitness o.state.bestParent.genes :: r.bestTrace, r.final⟩

/-- Embeds `AgeAnnealingRunner.run` (genetic.py lines 232-374), with
the loop bounded by `fuel`. The initial best-parent fitness is prepended to
`bestTrace` so the trace records the fitness `best_parent` holds after
every change of generation. -/
def run (env : Env) (fuel : Nat) : RunOut :=
  let init := env.generate
  if env.stoppingCriteria init.genes then
    ⟨some init, [], 0, [],
      ⟨init, init, false, [], FitnessStagnationDetection.State.initial, 0⟩⟩
  else
    let hist0 := [env.fitness init.genes]
    let s0 : State :=
      ⟨init, init, false, hist0, FitnessStagnationDetection.State.initial, 0⟩
    let r := loop env fuel s0
    { r with bestTrace := env.fitness init.genes :: r.bestTrace }

end AgeAnnealingRunner

namespace Runner

/-- Strategy objects and configuration of a concrete `Runner` subclass. -/
structure Env where
  fitness : Nat → Int
  stoppingCriteria : Nat → Bool
  mutate : Chromosome → Nat → Chromosome
  generate : Chromosome
  gens : Int

/-- Loop state of `Runner.run`: `best_parent`, the stagnation detector
state and the iteration counter. -/
structure State where
  bestParent : Chromosome
  det : FitnessStagnationDetection.State
  iter : Nat
deriving DecidableEq, Repr

structure StepOut where
  result : Option Chromosome
  state : State
  displayed : List Chromosome
deriving Repr

/-- One iteration of the `while True` loop of `Runner.run`
(genetic.py lines 165-208). -/
def step (env : Env) (s : State) : StepOut :=
  let n := s.iter + 1
  let child := env.mutate s.bestParent n
  if env.fitness s.bestParent.genes > env.fitness child.genes then
    let d := FitnessStagnationDetection.call env.gens
      (env.fitness s.bestParent.genes) s.det
    if d.1 then ⟨some s.bestParent, { s with det := d.2, iter := n }, []⟩
    else ⟨none, { s with det := d.2, iter := n }, []⟩
  else
    -- self.display(child), then the stopping check
    if env.stoppingCriteria child.genes then
      ⟨some child, { s with iter := n }, [child]⟩
    else
      ⟨none, ⟨child, s.det, n⟩, [child]⟩

structure RunOut where
  result : Option Chromosome
  displayed : List Chromosome
  mutations : Nat
  final : State
deriving Repr

def loop (env : Env) : Nat → State → RunOut
  | 0, s => ⟨none, [], 0, s⟩
  | fuel + 1, s =>
    let o := step env s
    match o.result with
    | some c => ⟨some c, o.displayed, 1, o.state⟩
    | none =>
      let r := loop env fuel o.state
      ⟨r.result, o.displayed ++ r.displayed, r.mutations + 1, r.final⟩

/-- Embeds `Runner.run` (genetic.py lines 138-208), with the loop
bounded by `fuel`. -/
def run (env : Env) (fuel : Nat) : RunOut :=
  let init := env.generate
  if env.stoppingCriteria init.genes then
    ⟨some init, [], 0, ⟨init, FitnessStagnationDetection.State.initial, 0⟩⟩
  else
    loop env fuel ⟨init, FitnessStagnationDetection.State.initial, 0⟩

end Runner

/-! ### Concrete environments used to evaluate the engine at specific inputs -/

/-- Fitness is the gene tag itself; age limit 1. Generation 1 produces a
strictly worse child (fitness 5 against 10) and the annealing test
accepts it (`proportion_similar = 0`, so `exp(-p) = 1` and the draw
`r < 1` necessarily succeeds); generation 2 produces a child of
fitness 7: better than the current parent (5) but worse than the best
found (10). -/
def envA : AgeAnnealingRunner.Env :=
  { fitness := fun g => (g : Int)
    stoppingCriteria := fun _ => false
    mutate := fun _ n => if n = 1 then ⟨5, 0⟩ else ⟨7, 0⟩
    accept := fun n _ => n == 1
    generate := ⟨10, 0⟩
    ageLimit := 1
    gens := 100 }

/-- Age limit 1. Generation 1 improves (fitness 20 over 10), so the
history becomes `[10, 20]`; generation 2 produces a strictly worse
child of fitness 15, driving the parent's age to the limit, with
`proportion_similar = 1/2` and a draw `r ≥ exp(-1/2)` (the `accept`
oracle reports the test failed), which selects the revert branch. -/
def envB : AgeAnnealingRunner.Env :=
  { fitness := fun g => (g : Int)
    stoppingCriteria := fun _ => false
    mutate := fun _ n => if n = 1 then ⟨20, 0⟩ else ⟨15, 0⟩
    accept := fun _ _ => false
    generate := ⟨10, 0⟩
    ageLimit := 1
    gens := 100 }

/-- The spec's "stagnation, no progress possible" scenario: a fitness
function that returns 0 for every candidate, stagnation limit 5. -/
def envC : AgeAnnealingRunner.Env :=
  { fitness := fun _ => 0
    stoppingCriteria := fun _ => false
    mutate := fun _ _ => ⟨0, 0⟩
    accept := fun _ _ => false
    generate := ⟨0, 0⟩
    ageLimit := 0
    gens := 5 }

/-- Every child is strictly worse than the initial candidate
(fitness 0 against 1); stagnation limit 5, no age annealing. -/
def envD : AgeAnnealingRunner.Env :=
  { fitness := fun g => (g : Int)
    stoppingCriteria := fun _ => false
    mutate := fun _ _ => ⟨0, 0⟩
    accept := fun _ _ => false
    generate := ⟨1, 0⟩
    ageLimit := 0
    gens := 5 }

/-- Plain `Runner` with a constant fitness: every child is exactly as
fit as its parent. -/
def envE : Runner.Env :=
  { fitness := fun _ => 0
    stoppingCriteria := fun _ => false
    mutate := fun _ _ => ⟨1, 0⟩
    generate := ⟨0, 0⟩
    gens := 100 }

/-- Plain `Runner` constructed with `fitness_stagnation_limit = 0`;
every child is strictly worse than the initial candidate. -/
def envF : Runner.Env :=
  { fitness := fun g => (g : Int)
    stoppingCriteria := fun _ => false
    mutate := fun _ _ => ⟨0, 0⟩
    generate := ⟨1, 0⟩
    gens := 0 }

/-- Plain `Runner` whose stopping criteria already hold for the
initially generated candidate. -/
def envG : Runner.Env :=
  { fitness := fun g => (g : Int)
    stoppingCriteria := fun g => g == 3
    mutate := fun _ _ => ⟨0, 0⟩
    generate := ⟨3, 7⟩
    gens := 100 }

/-- `AgeAnnealingRunner` whose stopping criteria already hold for the
initially generated candidate. -/
def envH : AgeAnnealingRunner.Env :=
  { fitness := fun g => (g : Int)
    stoppingCriteria := fun g => g == 3
    mutate := fun _ _ => ⟨0, 0⟩
    accept := fun _ _ => false
    generate := ⟨3, 7⟩
    ageLimit := 2
    gens := 100 }

/-! ### Claim theorems -/

/-- C1 (code_bug evaluation): the sequence of best-parent fitness values
is NOT non-decreasing. In `envA`, after annealing accepts a worse child
(fitness 5) as parent, generation 2's child (fitness 7) beats the parent
but not the best found (fitness 10); the unconditional
`best_parent = child` at genetic.py line 371 still replaces the best,
so the best-fitness trace 10, 10, 7 decreases. -/
theorem aa_best_fitness_decreases :
    (AgeAnnealingRunner.run envA 2).bestTrace = [10, 10, 7] ∧
    ¬ List.Sorted (· ≤ ·) (AgeAnnealingRunner.run envA 2).bestTrace := by
  constructor
  · decide
  · decide

/-- C2 (code_bug evaluation): in `envB`, generation 2 reaches the
annealing-revert branch (worse child of fitness 15, parent age at the
limit, draw `r ≥ exp(-1/2)`). The code sets `best_parent.age = 0` and
`parent = best_parent` but lacks the `continue`, so control falls into
the comparison section: the worse child is displayed, given age 0, and
made both `parent` and `best_parent` — rather than the iteration ending
with `parent` reverted to the fitness-20 best. -/
theorem aa_revert_falls_through :
    (AgeAnnealingRunner.run envB 2).displayed =
      [⟨20, 0⟩, ⟨15, 0⟩] ∧
    (AgeAnnealingRunner.run envB 2).final.parent = ⟨15, 0⟩ ∧
    (AgeAnnealingRunner.run envB 2).final.bestParent = ⟨15, 0⟩ ∧
    (AgeAnnealingRunner.run envB 2).bestTrace = [10, 20, 15] := by
  refine ⟨by decide, by decide, by decide, by decide⟩

/-- C3 (counterexample): with a fitness function that returns 0 for
every candidate and `fitness_stagnation_limit = 5`, the run does NOT
terminate after 5 non-improving generations — equally-fit children
never enter the worse-child branch, so the stagnation detector is never
invoked and the loop is still running after 20 generations. -/
theorem aa_constant_fitness_never_stops :
    (AgeAnnealingRunner.run envC 20).result = none ∧
    (AgeAnnealingRunner.run envC 20).mutations = 20 := by
  refine ⟨by decide, by decide⟩

/-- C4 (counterexample): with recorded history `[0, 1]` and a child of
fitness 1, the probability fed to the acceptance test is
`bisect_left` index 1 over length 2, i.e. `1/2`, whereas the fraction
of recorded values less than or equal to the child's fitness is
`2/2 = 1`. -/
theorem proportionSimilar_ne_le_fraction :
    proportionSimilar [0, 1] 1 = 1/2 ∧
    ((([0, 1] : List Int).countP (fun y => decide (y ≤ 1)) : Rat) /
      ((([0, 1] : List Int).length : Nat) : Rat) = 1) ∧
    (1/2 : Rat) ≠ 1 := by
  have hb : bisectLeft [0, 1] 1 0 ([0, 1] : List Int).length = 1 := by
    simp [bisectLeft]
  have hc : (([0, 1] : List Int).countP (fun y => decide (y ≤ 1))) = 2 := by
    decide
  refine ⟨?_, ?_, by norm_num⟩
  · unfold proportionSimilar
    rw [hb]
    norm_num
  · rw [hc]
    norm_num

/-- C5 (counterexample): in `envE` the first generation's child has
fitness equal to the parent's, so `best_parent`'s fitness does not
strictly improve (it stays 0), yet `Runner.run` invokes the display
hook on that child. -/
theorem runner_display_without_improvement :
    (Runner.run envE 1).displayed = [⟨1, 0⟩] ∧
    envE.fitness (Runner.run envE 1).final.bestParent.genes =
      envE.fitness envE.generate.genes := by
  refine ⟨by decide, by decide⟩

/-- C6 (counterexample): a run configured with
`fitness_stagnation_limit = 0` raises no error — neither
`FitnessStagnationDetection.__init__` nor the run loop validates the
limit (the embedded definitions are total because the source has no
raise path). The run silently terminates at the second worse-child
generation, returning the initial candidate. -/
theorem runner_zero_limit_no_error :
    (Runner.run envF 2).result = some ⟨1, 0⟩ ∧
    (Runner.run envF 1).result = none := by
  refine ⟨by decide, by decide⟩

/-- C9 (confirmed): `FitnessStagnationDetection.__call__` on a state
whose `last_fitness` is still `None` — in particular the freshly
constructed detector, whatever the configured limit `gens` (zero and
negative included) and whatever the chromosome's fitness `f` — returns
`False`, records `f` as the last fitness and sets the no-improvement
counter to 0. -/
theorem stagnation_first_call_records_only
    (gens : Int) (f : Int) (lg : Nat) :
    FitnessStagnationDetection.call gens f ⟨none, lg⟩ =
      (false, ⟨some f, 0⟩) := by
  rfl

/-- C10 (confirmed): in `Runner.run`, a child whose fitness equals the
parent's is treated exactly like a strictly better child: it is
displayed, the stopping criteria are checked on it (and it is returned
when they hold), and otherwise it replaces `best_parent`. -/
theorem runner_equal_fitness_is_improvement
    (env : Runner.Env) (s : Runner.State)
    (h : env.fitness (env.mutate s.bestParent (s.iter + 1)).genes =
         env.fitness s.bestParent.genes) :
    (Runner.step env s).displayed = [env.mutate s.bestParent (s.iter + 1)] ∧
    (Runner.step env s).result =
      (if env.stoppingCriteria (env.mutate s.bestParent (s.iter + 1)).genes
       then some (env.mutate s.bestParent (s.iter + 1)) else none) ∧
    (env.stoppingCriteria (env.mutate s.bestParent (s.iter + 1)).genes = false →
      (Runner.step env s).state.bestParent =
        env.mutate s.bestParent (s.iter + 1)) := by
  have hng : ¬ (env.fitness s.bestParent.genes >
      env.fitness (env.mutate s.bestParent (s.iter + 1)).genes) := by omega
  unfold Runner.step
  rw [if_neg hng]
  by_cases hstop :
      env.stoppingCriteria (env.mutate s.bestParent (s.iter + 1)).genes = true
  · simp [hstop]
  · simp only [Bool.not_eq_true] at hstop
    simp [hstop]

/-- C10 witness: in `envE` the first child ⟨1, 0⟩ ties the initial
parent ⟨0, 0⟩ (both fitness 0); it is displayed and becomes
`best_parent`. -/
theorem runner_equal_fitness_is_improvement_witness :
    (Runner.step envE ⟨⟨0, 0⟩, ⟨none, 0⟩, 0⟩).displayed = [⟨1, 0⟩] ∧
    (Runner.step envE ⟨⟨0, 0⟩, ⟨none, 0⟩, 0⟩).state.bestParent = ⟨1, 0⟩ := by
  have h := runner_equal_fitness_is_improvement envE ⟨⟨0, 0⟩, ⟨none, 0⟩, 0⟩
    (by decide)
  exact ⟨h.1, h.2.2 (by decide)⟩

/-- C7 (confirmed): in both `Runner.run` and `AgeAnnealingRunner.run`,
when the stopping criteria hold for the initially generated chromosome,
the run returns that exact chromosome and the mutation operator is
never invoked. -/
theorem run_returns_initial_when_stopping_met
    (envR : Runner.Env) (envAA : AgeAnnealingRunner.Env) (fuelR fuelA : Nat)
    (hR : envR.stoppingCriteria envR.generate.genes = true)
    (hA : envAA.stoppingCriteria envAA.generate.genes = true) :
    ((Runner.run envR fuelR).result = some envR.generate ∧
     (Runner.run envR fuelR).mutations = 0) ∧
    ((AgeAnnealingRunner.run envAA fuelA).result = some envAA.generate ∧
     (AgeAnnealingRunner.run envAA fuelA).mutations = 0) := by
  unfold Runner.run AgeAnnealingRunner.run
  rw [if_pos hR, if_pos hA]
  exact ⟨⟨rfl, rfl⟩, ⟨rfl, rfl⟩⟩

/-- C7 witness: `envG` and `envH` generate ⟨3, 7⟩, which already meets
the stopping criteria (genes 3); both runs return it having performed
zero mutations. -/
theorem run_returns_initial_when_stopping_met_witness :
    ((Runner.run envG 50).result = some ⟨3, 7⟩ ∧
     (Runner.run envG 50).mutations = 0) ∧
    ((AgeAnnealingRunner.run envH 50).result = some ⟨3, 7⟩ ∧
     (AgeAnnealingRunner.run envH 50).mutations = 0) :=
  run_returns_initial_when_stopping_met envG envH 50 50 (by decide) (by decide)

/-- When the child is at least as fit as the parent, one loop iteration
of `AgeAnnealingRunner.run` is exactly the comparison section. -/
lemma aaStep_not_worse (env : AgeAnnealingRunner.Env)
    (s : AgeAnnealingRunner.State)
    (h : ¬ (env.fitness s.parent.genes >
        env.fitness (env.mutate s.parent (s.iter + 1)).genes)) :
    AgeAnnealingRunner.step env s =
      AgeAnnealingRunner.tail env (env.mutate s.parent (s.iter + 1))
        { s with iter := s.iter + 1 } [] := by
  simp only [AgeAnnealingRunner.step]
  rw [if_neg h]

/-- C8 (confirmed): in any iteration of `AgeAnnealingRunner.run`, a
child strictly fitter than the parent becomes the new parent with age
0, and a child exactly as fit as the parent becomes the new parent
with age `old_parent.age + 1`. -/
theorem aa_age_reset_law (env : AgeAnnealingRunner.Env)
    (s : AgeAnnealingRunner.State) :
    (env.fitness (env.mutate s.parent (s.iter + 1)).genes >
        env.fitness s.parent.genes →
      (AgeAnnealingRunner.step env s).state.parent =
        ⟨(env.mutate s.parent (s.iter + 1)).genes, 0⟩) ∧
    (env.fitness (env.mutate s.parent (s.iter + 1)).genes =
        env.fitness s.parent.genes →
      (AgeAnnealingRunner.step env s).state.parent =
        ⟨(env.mutate s.parent (s.iter + 1)).genes, s.parent.age + 1⟩) := by
  constructor
  · intro h
    rw [aaStep_not_worse env s (by omega)]
    simp only [AgeAnnealingRunner.tail]
    split_ifs <;> first | rfl | omega
  · intro h
    rw [aaStep_not_worse env s (by omega)]
    simp only [AgeAnnealingRunner.tail]
    split_ifs <;> first | rfl | omega

/-- C8 witness: with `envA`, iteration 2's child ⟨7, 0⟩ strictly beats
a parent of fitness 5 and becomes the parent with age 0; against a
parent ⟨7, 3⟩ of equal fitness it becomes the parent with age 4. -/
theorem aa_age_reset_law_witness :
    (AgeAnnealingRunner.step envA
      ⟨⟨10, 0⟩, ⟨5, 2⟩, false, [10], ⟨none, 0⟩, 1⟩).state.parent = ⟨7, 0⟩ ∧
    (AgeAnnealingRunner.step envA
      ⟨⟨10, 0⟩, ⟨7, 3⟩, false, [10], ⟨none, 0⟩, 1⟩).state.parent = ⟨7, 4⟩ := by
  refine ⟨(aa_age_reset_law envA _).1 (by decide),
          (aa_age_reset_law envA _).2 (by decide)⟩

/-- A worse-child iteration that reaches the annealing test and fails
it (the revert branch): the best candidate's age is reset to 0, the
parent is reverted to it, and — for want of a `continue` — control
falls through into the comparison section. -/
lemma aaStep_worse_revert (env : AgeAnnealingRunner.Env)
    (s : AgeAnnealingRunner.State) (d2 : FitnessStagnationDetection.State)
    (hw : env.fitness s.parent.genes >
      env.fitness (env.mutate s.parent (s.iter + 1)).genes)
    (hcall : FitnessStagnationDetection.call env.gens
      (env.fitness s.bestParent.genes) s.det = (false, d2))
    (hAge : env.ageLimit ≠ 0)
    (hage2 : ¬ (s.parent.age + 1 < env.ageLimit))
    (hacc : env.accept (s.iter + 1)
      (proportionSimilar s.hist
        (env.fitness (env.mutate s.parent (s.iter + 1)).genes)) = false) :
    AgeAnnealingRunner.step env s =
      AgeAnnealingRunner.tail env (env.mutate s.parent (s.iter + 1))
        { s with parent := ⟨s.bestParent.genes, 0⟩,
                 bestParent := ⟨s.bestParent.genes, 0⟩, aliased := true,
                 det := d2, iter := s.iter + 1 }
        [proportionSimilar s.hist
          (env.fitness (env.mutate s.parent (s.iter + 1)).genes)] := by
  simp only [AgeAnnealingRunner.step]
  rw [if_pos hw, hcall]
  dsimp only
  rw [if_neg hAge, if_neg hage2, hacc]
  cases hal : s.aliased <;> simp [hal]

/-- C5 (amended): in `Runner.run` the display hook is invoked exactly
once in every generation whose child is at least as fit as the parent,
and never when the child is strictly less fit. In
`AgeAnnealingRunner.run`, a child exactly as fit as the parent is never
displayed; a child strictly fitter than the parent is displayed exactly
once; and in a revert generation (worse child, no stagnation signal,
nonzero age limit reached, draw `r ≥ exp(-p)`) whose child's fitness
differs from the best candidate's, the strictly-less-fit child is also
displayed once, via the missing-`continue` fall-through. Display thus
tracks accepted (or fallen-through) children, not improvements of
`best_parent`. -/
theorem display_once_per_accepted_child
    (envR : Runner.Env) (sR : Runner.State)
    (envA : AgeAnnealingRunner.Env) (sA : AgeAnnealingRunner.State) :
    ((Runner.step envR sR).displayed =
      (if envR.fitness sR.bestParent.genes >
          envR.fitness (envR.mutate sR.bestParent (sR.iter + 1)).genes
       then [] else [envR.mutate sR.bestParent (sR.iter + 1)])) ∧
    (envA.fitness (envA.mutate sA.parent (sA.iter + 1)).genes =
        envA.fitness sA.parent.genes →
      (AgeAnnealingRunner.step envA sA).displayed = []) ∧
    (envA.fitness (envA.mutate sA.parent (sA.iter + 1)).genes >
        envA.fitness sA.parent.genes →
      (AgeAnnealingRunner.step envA sA).displayed =
        [⟨(envA.mutate sA.parent (sA.iter + 1)).genes, 0⟩]) ∧
    (∀ d2 : FitnessStagnationDetection.State,
      envA.fitness sA.parent.genes >
        envA.fitness (envA.mutate sA.parent (sA.iter + 1)).genes →
      FitnessStagnationDetection.call envA.gens
        (envA.fitness sA.bestParent.genes) sA.det = (false, d2) →
      envA.ageLimit ≠ 0 →
      ¬ (sA.parent.age + 1 < envA.ageLimit) →
      envA.accept (sA.iter + 1)
        (proportionSimilar sA.hist
          (envA.fitness (envA.mutate sA.parent (sA.iter + 1)).genes)) =
        false →
      envA.fitness sA.bestParent.genes ≠
        envA.fitness (envA.mutate sA.parent (sA.iter + 1)).genes →
      (AgeAnnealingRunner.step envA sA).displayed =
        [⟨(envA.mutate sA.parent (sA.iter + 1)).genes, 0⟩]) := by
  refine ⟨?_, ?_, ?_, ?_⟩
  · simp only [Runner.step]
    split_ifs <;> rfl
  · intro h
    rw [aaStep_not_worse envA sA (by omega)]
    simp only [AgeAnnealingRunner.tail]
    split_ifs <;> first | rfl | omega
  · intro h
    rw [aaStep_not_worse envA sA (by omega)]
    simp only [AgeAnnealingRunner.tail]
    split_ifs <;> first | rfl | omega
  · intro d2 hw hcall hAge hage2 hacc hne
    rw [aaStep_worse_revert envA sA d2 hw hcall hAge hage2 hacc]
    simp only [AgeAnnealingRunner.tail]
    split_ifs <;> first | rfl | omega

/-- C5 witness, one generation per branch: in `envE` the equally-fit
child ⟨1, 0⟩ is displayed by the plain Runner; in `envC` the annealing
engine does not display an equally-fit child; in `envA` it displays
the strictly-better child ⟨7, 0⟩ once; and in `envB`'s revert
generation it displays the strictly worse child ⟨15, 0⟩ once. -/
theorem display_once_per_accepted_child_witness :
    (Runner.step envE ⟨⟨0, 0⟩, ⟨none, 0⟩, 0⟩).displayed = [⟨1, 0⟩] ∧
    (AgeAnnealingRunner.step envC
      ⟨⟨0, 0⟩, ⟨0, 0⟩, false, [0], ⟨none, 0⟩, 0⟩).displayed = [] ∧
    (AgeAnnealingRunner.step envA
      ⟨⟨10, 0⟩, ⟨5, 2⟩, false, [10], ⟨none, 0⟩, 1⟩).displayed =
      [⟨7, 0⟩] ∧
    (AgeAnnealingRunner.step envB
      ⟨⟨20, 0⟩, ⟨20, 0⟩, true, [10, 20], ⟨none, 0⟩, 1⟩).displayed =
      [⟨15, 0⟩] := by
  have h1 := display_once_per_accepted_child envE ⟨⟨0, 0⟩, ⟨none, 0⟩, 0⟩
    envC ⟨⟨0, 0⟩, ⟨0, 0⟩, false, [0], ⟨none, 0⟩, 0⟩
  have h2 := display_once_per_accepted_child envE ⟨⟨0, 0⟩, ⟨none, 0⟩, 0⟩
    envA ⟨⟨10, 0⟩, ⟨5, 2⟩, false, [10], ⟨none, 0⟩, 1⟩
  have h3 := display_once_per_accepted_child envE ⟨⟨0, 0⟩, ⟨none, 0⟩, 0⟩
    envB ⟨⟨20, 0⟩, ⟨20, 0⟩, true, [10, 20], ⟨none, 0⟩, 1⟩
  refine ⟨?_, h1.2.1 (by decide), h2.2.2.1 (by decide),
    h3.2.2.2 ⟨some 20, 0⟩ (by decide) rfl (by decide) (by decide) rfl
      (by decide)⟩
  rw [h1.1]
  decide

/-- C6 (amended): a zero or negative `fitness_stagnation_limit` is
accepted without any error; the detector's first call still returns
`False` (it only records the fitness), and every subsequent call whose
fitness has not improved returns `True`, so a run terminates at the
second worse-child generation instead of failing fast. -/
theorem stagnation_zero_limit_trips_second_call
    (gens f f2 : Int) (lg n : Nat) (hg : gens ≤ 0) (hf : ¬ f2 > f) :
    FitnessStagnationDetection.call gens f ⟨none, lg⟩ =
      (false, ⟨some f, 0⟩) ∧
    (FitnessStagnationDetection.call gens f2 ⟨some f, n⟩).1 = true := by
  refine ⟨rfl, ?_⟩
  simp only [FitnessStagnationDetection.call, if_neg hf]
  simp only [decide_eq_true_eq, ge_iff_le]
  omega

/-- C6 witness: with limit 0 and a constant fitness 1, the first call
returns `False` and the second returns `True`. -/
theorem stagnation_zero_limit_trips_second_call_witness :
    FitnessStagnationDetection.call 0 1 ⟨none, 0⟩ = (false, ⟨some 1, 0⟩) ∧
    (FitnessStagnationDetection.call 0 1 ⟨some 1, 0⟩).1 = true :=
  stagnation_zero_limit_trips_second_call 0 1 1 0 0 (by norm_num) (by norm_num)

/-- A detector call that sees no improvement increments the counter and
signals when it reaches the limit. -/
lemma detCall_no_improvement (gens f lf : Int) (k : Nat) (h : ¬ f > lf) :
    FitnessStagnationDetection.call gens f ⟨some lf, k⟩ =
      (decide (((k + 1 : Nat) : Int) ≥ gens), ⟨some lf, k + 1⟩) := by
  simp only [FitnessStagnationDetection.call, if_neg h]

/-- A worse-child iteration in which the stagnation detector fires
returns `best_parent`. -/
lemma aaStep_worse_stop (env : AgeAnnealingRunner.Env)
    (s : AgeAnnealingRunner.State) (d2 : FitnessStagnationDetection.State)
    (hw : env.fitness s.parent.genes >
      env.fitness (env.mutate s.parent (s.iter + 1)).genes)
    (hcall : FitnessStagnationDetection.call env.gens
      (env.fitness s.bestParent.genes) s.det = (true, d2)) :
    AgeAnnealingRunner.step env s =
      ⟨some s.bestParent, { s with det := d2, iter := s.iter + 1 }, [], []⟩ := by
  simp only [AgeAnnealingRunner.step]
  rw [if_pos hw, hcall]
  simp

/-- A worse-child iteration with no stagnation signal and a falsy
`age_limit` changes only the detector state and iteration counter. -/
lemma aaStep_worse_cont_age0 (env : AgeAnnealingRunner.Env)
    (s : AgeAnnealingRunner.State) (d2 : FitnessStagnationDetection.State)
    (hw : env.fitness s.parent.genes >
      env.fitness (env.mutate s.parent (s.iter + 1)).genes)
    (hcall : FitnessStagnationDetection.call env.gens
      (env.fitness s.bestParent.genes) s.det = (false, d2))
    (hAge : env.ageLimit = 0) :
    AgeAnnealingRunner.step env s =
      ⟨none, { s with det := d2, iter := s.iter + 1 }, [], []⟩ := by
  simp only [AgeAnnealingRunner.step]
  rw [if_pos hw, hcall, if_pos hAge]
  simp

/-- With every child strictly worse than the (unchanging) parent and no
age annealing, the loop started with the detector counter at `k < N`
returns the best parent within `m` iterations exactly when `N ≤ k + m`. -/
lemma aaLoop_all_worse (env : AgeAnnealingRunner.Env) (N : Nat)
    (hgens : env.gens = (N : Int)) (hAge : env.ageLimit = 0)
    (hworse : ∀ n, env.fitness (env.mutate env.generate n).genes <
      env.fitness env.generate.genes) :
    ∀ (m k it : Nat) (al : Bool) (hist : List Int), k < N →
      (AgeAnnealingRunner.loop env m
        ⟨env.generate, env.generate, al, hist,
          ⟨some (env.fitness env.generate.genes), k⟩, it⟩).result =
        (if N ≤ k + m then some env.generate else none) := by
  intro m
  induction m with
  | zero =>
    intro k it al hist hk
    simp only [AgeAnnealingRunner.loop]
    rw [if_neg (by omega)]
  | succ m ih =>
    intro k it al hist hk
    by_cases hN1 : N ≤ k + 1
    · have hcall : FitnessStagnationDetection.call env.gens
          (env.fitness env.generate.genes)
          ⟨some (env.fitness env.generate.genes), k⟩ =
          (true, ⟨some (env.fitness env.generate.genes), k + 1⟩) := by
        rw [detCall_no_improvement _ _ _ _ (by omega)]
        have hdec : decide (((k + 1 : Nat) : Int) ≥ env.gens) = true := by
          simp only [hgens, decide_eq_true_eq, ge_iff_le]
          omega
        rw [hdec]
      simp only [AgeAnnealingRunner.loop]
      rw [aaStep_worse_stop env _ _ (hworse (it + 1)) hcall]
      rw [if_pos (by omega)]
    · have hcall : FitnessStagnationDetection.call env.gens
          (env.fitness env.generate.genes)
          ⟨some (env.fitness env.generate.genes), k⟩ =
          (false, ⟨some (env.fitness env.generate.genes), k + 1⟩) := by
        rw [detCall_no_improvement _ _ _ _ (by omega)]
        have hdec : decide (((k + 1 : Nat) : Int) ≥ env.gens) = false := by
          simp only [hgens, decide_eq_false_iff_not, ge_iff_le]
          omega
        rw [hdec]
      simp only [AgeAnnealingRunner.loop]
      rw [aaStep_worse_cont_age0 env _ _ (hworse (it + 1)) hcall hAge]
      have harith : k + (m + 1) = (k + 1) + m := by omega
      rw [harith]
      exact ih (k + 1) (it + 1) al hist (by omega)

/-- C3 (amended): with stagnation limit N (N at least 1) and every
child strictly worse than the initial parent, the run returns the
initial candidate after exactly N+1 worse generations — one more than
the claim states, because the detector's first call only records a
baseline — and is still running after N generations. Generations whose
child ties the parent never invoke the detector at all (see the
counterexample), so non-improvement alone does not terminate a run. -/
theorem aa_stagnation_after_worse_generations
    (env : AgeAnnealingRunner.Env) (N : Nat) (hN : 1 ≤ N)
    (hgens : env.gens = (N : Int)) (hAge : env.ageLimit = 0)
    (hstop : env.stoppingCriteria env.generate.genes = false)
    (hworse : ∀ n, env.fitness (env.mutate env.generate n).genes <
      env.fitness env.generate.genes) :
    (AgeAnnealingRunner.run env (N + 1)).result = some env.generate ∧
    (AgeAnnealingRunner.run env N).result = none := by
  have hrun : ∀ fuel, (AgeAnnealingRunner.run env fuel).result =
      (AgeAnnealingRunner.loop env fuel
        ⟨env.generate, env.generate, false,
          [env.fitness env.generate.genes],
          FitnessStagnationDetection.State.initial, 0⟩).result := by
    intro fuel
    simp only [AgeAnnealingRunner.run, hstop, Bool.false_eq_true, if_false]
  have hfirst : ∀ m, (AgeAnnealingRunner.loop env (m + 1)
      ⟨env.generate, env.generate, false, [env.fitness env.generate.genes],
        FitnessStagnationDetection.State.initial, 0⟩).result =
      (AgeAnnealingRunner.loop env m
        ⟨env.generate, env.generate, false, [env.fitness env.generate.genes],
          ⟨some (env.fitness env.generate.genes), 0⟩, 1⟩).result := by
    intro m
    have hcall0 : FitnessStagnationDetection.call env.gens
        (env.fitness env.generate.genes)
        FitnessStagnationDetection.State.initial =
        (false, ⟨some (env.fitness env.generate.genes), 0⟩) := rfl
    simp only [AgeAnnealingRunner.loop]
    rw [aaStep_worse_cont_age0 env _ _ (hworse 1) hcall0 hAge]
  constructor
  · rw [hrun, hfirst N]
    rw [aaLoop_all_worse env N hgens hAge hworse N 0 1 false
      [env.fitness env.generate.genes] (by omega)]
    rw [if_pos (by omega)]
  · obtain ⟨M, rfl⟩ : ∃ M, N = M + 1 := ⟨N - 1, by omega⟩
    rw [hrun, hfirst M]
    rw [aaLoop_all_worse env (M + 1) hgens hAge hworse M 0 1 false
      [env.fitness env.generate.genes] (by omega)]
    rw [if_neg (by omega)]

/-- C3 witness: `envD` (all children strictly worse, limit 5)
terminates at generation 6 returning the initial ⟨1, 0⟩, and is still
running after 5 generations. -/
theorem aa_stagnation_witness :
    (AgeAnnealingRunner.run envD 6).result = some ⟨1, 0⟩ ∧
    (AgeAnnealingRunner.run envD 5).result = none := by
  have h := aa_stagnation_after_worse_generations envD 5 (by norm_num) rfl rfl
    rfl (fun n => by norm_num [envD])
  exact h

/-- Total list access agrees with the checked one in range. -/
lemma getD_eq_get (a : List Int) (i : Nat) (h : i < a.length) :
    a.getD i 0 = a.get ⟨i, h⟩ := by
  simp [List.getD_eq_getElem?_getD, List.getElem?_eq_getElem h]

/-- In a list sorted by `≤`, access is monotone in the index. -/
lemma sorted_getD_mono (a : List Int) (hs : List.Sorted (· ≤ ·) a)
    (i j : Nat) (hij : i ≤ j) (hj : j < a.length) :
    a.getD i 0 ≤ a.getD j 0 := by
  rcases Nat.lt_or_ge i j with hlt | hge
  · rw [getD_eq_get a i (by omega), getD_eq_get a j hj]
    exact List.Sorted.rel_get_of_lt hs (by simpa using hlt)
  · have : i = j := by omega
    subst this
    exact le_rfl

/-- If a Boolean predicate holds exactly on the first `k` positions of a
list, its `countP` is `k`. -/
lemma countP_eq_of_cut (a : List Int) : ∀ (p : Int → Bool) (k : Nat),
    k ≤ a.length →
    (∀ i (h : i < a.length), p (a.get ⟨i, h⟩) = decide (i < k)) →
    a.countP p = k := by
  induction a with
  | nil =>
    intro p k hk _
    simp only [List.length_nil, Nat.le_zero] at hk
    simp [hk]
  | cons hd tl ih =>
    intro p k hk hcut
    have h0 := hcut 0 (by simp)
    rw [List.countP_cons]
    cases k with
    | zero =>
      have hph : p hd = false := by simpa using h0
      have htl : tl.countP p = 0 := by
        apply ih p 0 (by omega)
        intro i h
        have hi := hcut (i + 1) (by simp; omega)
        simpa using hi
      simp [htl, hph]
    | succ k' =>
      have hph : p hd = true := by simpa using h0
      have htl : tl.countP p = k' := by
        apply ih p k' (by simp at hk; omega)
        intro i h
        have hi := hcut (i + 1) (by simp; omega)
        simpa using hi
      simp [htl, hph]

/-- On a `≤`-sorted list, `bisect_left` with invariant-respecting bounds
computes the number of elements strictly below `x`. -/
lemma bisectLeft_sorted_eq (a : List Int) (x : Int)
    (hs : List.Sorted (· ≤ ·) a) :
    ∀ (cnt lo hi : Nat), hi - lo ≤ cnt → lo ≤ hi → hi ≤ a.length →
    (∀ i, i < lo → a.getD i 0 < x) →
    (∀ i, hi ≤ i → i < a.length → ¬ a.getD i 0 < x) →
    bisectLeft a x lo hi = a.countP (fun y => decide (y < x)) := by
  intro cnt
  induction cnt with
  | zero =>
    intro lo hi hcnt hle hlen hinv1 hinv2
    have heq : lo = hi := by omega
    subst heq
    unfold bisectLeft
    rw [dif_neg (by omega)]
    refine (countP_eq_of_cut a _ lo (by omega) ?_).symm
    intro i h
    rcases Nat.lt_or_ge i lo with hc | hc
    · have h1 := hinv1 i hc
      rw [getD_eq_get a i h] at h1
      simp only [List.get_eq_getElem] at h1
      simp [h1, hc]
    · have h2 := hinv2 i hc h
      rw [getD_eq_get a i h] at h2
      have hnc : ¬ i < lo := by omega
      simp only [List.get_eq_getElem] at h2
      simp [hnc]
      omega
  | succ cnt ih =>
    intro lo hi hcnt hle hlen hinv1 hinv2
    by_cases hlohi : lo < hi
    · unfold bisectLeft
      rw [dif_pos hlohi]
      simp only []
      by_cases hmid : a.getD ((lo + hi) / 2) 0 < x
      · rw [if_pos hmid]
        apply ih ((lo + hi) / 2 + 1) hi (by omega) (by omega) hlen
        · intro i hi2
          rcases Nat.lt_or_ge i lo with hcase | hcase
          · exact hinv1 i hcase
          · calc a.getD i 0 ≤ a.getD ((lo + hi) / 2) 0 :=
                  sorted_getD_mono a hs i ((lo + hi) / 2) (by omega) (by omega)
              _ < x := hmid
        · exact hinv2
      · rw [if_neg hmid]
        apply ih lo ((lo + hi) / 2) (by omega) (by omega) (by omega) hinv1
        intro i hge hilen
        rcases Nat.lt_or_ge i hi with hcase | hcase
        · have hmono : a.getD ((lo + hi) / 2) 0 ≤ a.getD i 0 :=
            sorted_getD_mono a hs ((lo + hi) / 2) i (by omega) (by omega)
          omega
        · exact hinv2 i hcase hilen
    · have heq : lo = hi := by omega
      subst heq
      unfold bisectLeft
      rw [dif_neg (by omega)]
      refine (countP_eq_of_cut a _ lo (by omega) ?_).symm
      intro i h
      rcases Nat.lt_or_ge i lo with hc | hc
      · have h1 := hinv1 i hc
        rw [getD_eq_get a i h] at h1
        simp only [List.get_eq_getElem] at h1
        simp [h1, hc]
      · have h2 := hinv2 i hc h
        rw [getD_eq_get a i h] at h2
        have hnc : ¬ i < lo := by omega
        simp only [List.get_eq_getElem] at h2
        simp [hnc]
        omega

/-- C4 (amended): as long as the recorded history is sorted ascending
(which is how `bisect_left` is meaningful), the probability `p` used in
the acceptance test equals the fraction of recorded historical fitness
values STRICTLY LESS than the child's fitness — not the fraction that
is less than or equal to it. -/
theorem proportionSimilar_eq_fraction_lt (hist : List Int) (f : Int)
    (hs : List.Sorted (· ≤ ·) hist) :
    proportionSimilar hist f =
      ((hist.countP (fun y => decide (y < f)) : Rat) / (hist.length : Rat)) := by
  unfold proportionSimilar
  rw [bisectLeft_sorted_eq hist f hs hist.length 0 hist.length (by omega)
    (by omega) le_rfl (fun i hi => absurd hi (by omega))
    (fun i hge hlt => absurd hlt (by omega))]

/-- C4 witness: the history `[0, 5]` is sorted, and for a child of
fitness 3 the acceptance-test probability is `1/2`, the fraction of
recorded values strictly below 3. -/
theorem proportionSimilar_eq_fraction_lt_witness :
    List.Sorted (· ≤ ·) ([0, 5] : List Int) ∧
    proportionSimilar [0, 5] 3 = 1/2 := by
  refine ⟨by decide, ?_⟩
  rw [proportionSimilar_eq_fraction_lt [0, 5] 3 (by decide)]
  have hc : (([0, 5] : List Int).countP (fun y => decide (y < 3))) = 1 := by
    decide
  rw [hc]
  norm_num
